import Mathlib

/-!
Shallow embedding of the rcsb-molstar preset helpers:
determineAssemblyId with its inner equals and parseOperatorList helpers
(preset file, Target-based variant), the strucmotif submitSearch routine,
and the seq-id range expansion of getLociFromRange and
createComponentFromRange.  JavaScript strings are modelled as Lean
strings (the inputs at issue are ASCII, so UTF-16 index arithmetic and
Lean char lists agree), JS numbers holding integer counters as Int/Nat,
and thrown exceptions as an explicit error case of the accessor type.
-/

/-- Splitting a string at every separator character, keeping empty chunks,
as JavaScript String.prototype.split with a single-character separator
(and as the maximal-run decomposition used for the paren regex). -/
def splitCharsAux (p : Char → Bool) : List Char → List Char → List String
  | [], acc => [String.mk acc.reverse]
  | c :: rest, acc =>
    if p c then String.mk acc.reverse :: splitCharsAux p rest []
    else splitCharsAux p rest (c :: acc)

/-- jsSplit p s: split s at the characters satisfying p, keeping empties. -/
def jsSplit (p : Char → Bool) (s : String) : List String :=
  splitCharsAux p s.toList []

/-- The whitespace stripped by the JS trim and parseInt used here (the
source only ever feeds ASCII tokens, so the ASCII whitespace set suffices). -/
def isJsWhitespace (c : Char) : Bool :=
  c == ' ' || c == '\t' || c == '\n' || c == '\r'

/-- JavaScript String.prototype.trim on ASCII input. -/
def jsTrim (s : String) : String :=
  String.mk (((s.toList.dropWhile isJsWhitespace).reverse.dropWhile isJsWhitespace).reverse)

/-- Value of a run of decimal digits. -/
def digitsToNat (cs : List Char) : Nat :=
  cs.foldl (fun acc c => acc * 10 + (c.toNat - 48)) 0

/-- JavaScript parseInt with radix 10 on the decimal tokens this code feeds
it: skip leading whitespace, an optional sign, then the maximal run of
decimal digits; none models NaN (no digit found). -/
def parseIntOpt (s : String) : Option Int :=
  let cs := s.toList.dropWhile isJsWhitespace
  let signAndRest : Int × List Char :=
    match cs with
    | '-' :: rest => (-1, rest)
    | '+' :: rest => (1, rest)
    | _ => (1, cs)
  let ds := signAndRest.2.takeWhile (fun c => c.isDigit)
  if ds.isEmpty then none else some (signAndRest.1 * (digitsToNat ds : Int))

/-- The dash branch of parseOperatorList:
from = parseInt(...), to = parseInt(...), then
for (let i = from; i <= to; i++) group.push(i.toString()).
A NaN bound or an inverted range runs the loop zero times. -/
def expandRange (pre post : String) : List String :=
  match parseIntOpt pre, parseIntOpt post with
  | some a, some b => (List.range (b - a + 1).toNat).map (fun (k : Nat) => toString (a + (k : Int)))
  | some _, none => []
  | none, some _ => []
  | none, none => []

/-- One comma-separated element of a group: when the first dash sits at a
positive index the element is treated as a numeric range, otherwise the
trimmed element itself is kept. -/
def expandElement (e : String) : List String :=
  match e.toList.findIdx? (fun c => c == '-') with
  | some d =>
    if 0 < d then
      expandRange (String.mk (e.toList.take d)) (String.mk (e.toList.drop (d + 1)))
    else [jsTrim e]
  | none => [jsTrim e]

/-- One regex group of parseOperatorList: comma-split, each element expanded. -/
def parseGroup (g : String) : List String :=
  ((jsSplit (fun c => c == ',') g).map expandElement).flatten

/-- parseOperatorList(value): the global regex of the source matches, in
order, exactly the maximal nonempty runs of non-parenthesis characters
(an optional opening and closing paren around each run is consumed), so the
captured groups are the nonempty chunks of the string split at parens;
each group is then comma-split and dash-expanded. -/
def parseOperatorList (value : String) : List (List String) :=
  ((jsSplit (fun c => c == '(' || c == ')') value).filter (fun g => g ≠ "")).map parseGroup

/-- The inner equals(expr, val) of determineAssemblyId: parse the row
expression into axes, split the requested coordinate at the character x,
count the positions (up to the shorter length) whose axis token-list
contains the component, and succeed when that count equals the number of
components. -/
def equalsFn (expr val : String) : Bool :=
  let axes := parseOperatorList expr
  let comps := jsSplit (fun c => c == 'x') val
  ((axes.zip comps).countP (fun q => q.1.contains q.2)) == comps.length

/-- Substring containment over char lists. -/
def containsSub : List Char → List Char → Bool
  | [], needle => needle.isEmpty
  | h :: t, needle => needle.isPrefixOf (h :: t) || containsSub t needle

/-- JavaScript hay.indexOf(needle) !== -1 for strings. -/
def strContains (hay needle : String) : Bool :=
  containsSub hay.toList needle.toList

/-- A residue/chain target of the motif preset, reduced to the two fields
determineAssemblyId reads: struct_oper_id (possibly absent) and the
label_asym_id (asserted non-null in the source). -/
structure Target where
  struct_oper_id : Option String
  label_asym_id : String
deriving DecidableEq

/-- JS truthiness default t.struct_oper_id || einsString (an empty string is
falsy and also falls back to the default). -/
def operOrDefault (o : Option String) : String :=
  match o with
  | some s => if s = "" then "1" else s
  | none => "1"

/-- Array.prototype.indexOf over the mapped pair array: elements are fresh
JS array objects compared by strict equality, which for objects is
reference identity; the embedding tags every element with its allocation
position, and indexOf searches by that tagged identity. -/
def jsIndexOf (a : List (Nat × String × String)) (x : Nat × String × String) : Int :=
  match a.findIdx? (fun y => y == x) with
  | some i => (i : Int)
  | none => -1

/-- The id extraction of determineAssemblyId:
p.targets.map(t => [t.struct_oper_id || one, t.label_asym_id]).filter((x, i, a) => a.indexOf(x) === i). -/
def extractIds (targets : List Target) : List (String × String) :=
  let tagged := (targets.map (fun t => (operOrDefault t.struct_oper_id, t.label_asym_id))).enum
  (tagged.filter (fun x => jsIndexOf tagged x == (x.1 : Int))).map (fun x => x.2)

/-- One row of the pdbx_struct_assembly_gen category: the three string
fields read by determineAssemblyId, at one shared row index. -/
structure GenRow where
  assembly_id : String
  oper_expression : String
  asym_id_list : String
deriving DecidableEq

/-- The metadata accessor chain
traj.obj.data.representative.sourceData.data.frame.categories.pdbx_struct_assembly_gen
together with its field lookups: either every lookup succeeds and the rows
are available, or some step throws (absent or null intermediate object, a
throwing accessor, a failing field lookup); every such exception is the
error case, caught by the try/catch of the source. -/
inductive TableAccess where
  | ok (rows : List GenRow)
  | error
deriving DecidableEq

/-- The motif preset props fields read and written by determineAssemblyId. -/
structure MotifProps where
  assemblyId : Option String
  targets : List Target
deriving DecidableEq

/-- The guard p.assemblyId && p.assemblyId !== emptyString && p.assemblyId !== zeroString;
undefined and the empty string are falsy. -/
def assemblyKnown (a : Option String) : Bool :=
  match a with
  | some s => s != "" && s != "0"
  | none => false

/-- One requested pair against one table row, the body of the continue
condition: equals on the operator expression and substring containment of
the chain label in the raw asym_id_list string. -/
def codePairMatches (r : GenRow) (v : String × String) : Bool :=
  equalsFn r.oper_expression v.1 && strContains r.asym_id_list v.2

/-- A row survives the continue filter iff no requested pair fails. -/
def rowMatches (ids : List (String × String)) (r : GenRow) : Bool :=
  ids.all (fun v => codePairMatches r v)

/-- determineAssemblyId(traj, p): return unchanged when the assembly id is
already known; otherwise scan the table rows in order, assign the assembly
id of the first row matching every extracted pair, and on a lookup
exception or when no row matches assign the default id 1. -/
def determineAssemblyId (table : TableAccess) (p : MotifProps) : MotifProps :=
  if assemblyKnown p.assemblyId then p
  else
    match table with
    | TableAccess.error => { p with assemblyId := some "1" }
    | TableAccess.ok rows =>
      match rows.find? (rowMatches (extractIds p.targets)) with
      | some r => { p with assemblyId := some r.assembly_id }
      | none => { p with assemblyId := some "1" }

/-- Modelled from the spec: the C2 wording of the row-matching predicate,
to be compared with the code predicate codePairMatches — the requested
chain must be a member of the comma-split chain-label list, and the
requested operator coordinate is split into its dot-separated components,
each of which must be contained in the positionally corresponding parsed
axis. -/
def specPairMatches (r : GenRow) (v : String × String) : Bool :=
  (jsSplit (fun c => c == ',') r.asym_id_list).contains v.2 &&
  (decide ((jsSplit (fun c => c == '.') v.1).length ≤ (parseOperatorList r.oper_expression).length) &&
   ((parseOperatorList r.oper_expression).zip (jsSplit (fun c => c == '.') v.1)).all
     (fun q => q.1.contains q.2))

/-- One entry of the selection additions history, reduced to what
submitSearch reads from it: the source model entry id and the chain and
sequence id of its first element. -/
structure HistEntry where
  entry : String
  label_asym_id : String
  label_seq_id : Int
deriving DecidableEq

/-- One element of the residue_ids array of the built query. -/
structure ResidueId where
  label_asym_id : String
  struct_oper_id : String
  label_seq_id : Int
deriving DecidableEq

/-- The strucmotif query parameters that depend on the selection: the data
entry id (first value of the JS Set, absent only for an empty history) and
the residue_ids array. -/
structure MotifQuery where
  data : Option String
  residue_ids : List ResidueId
deriving DecidableEq

def MAX_MOTIF_SIZE : Nat := 10

/-- Insertion-ordered add of a JS Set. -/
def setInsert (l : List String) (s : String) : List String :=
  if s ∈ l then l else l ++ [s]

/-- A JS Set built by inserting the list elements in order; its size is the
length and values().next().value is the head. -/
def setOfList (xs : List String) : List String :=
  xs.foldl setInsert []

/-- submitSearch: loop over the first min(MAX_MOTIF_SIZE, length) history
entries, collecting entry ids into a Set and residue ids into an array;
return without a query when the Set holds more than one entry id, or when
the residue array exceeds MAX_MOTIF_SIZE; otherwise build the query. -/
def submitSearch (history : List HistEntry) : Option MotifQuery :=
  let considered := history.take MAX_MOTIF_SIZE
  let pdbId := setOfList (considered.map (fun l => l.entry))
  let residueIds := considered.map
    (fun l => ({ label_asym_id := l.label_asym_id, struct_oper_id := "1",
                 label_seq_id := l.label_seq_id } : ResidueId))
  if pdbId.length > 1 then none
  else if residueIds.length > MAX_MOTIF_SIZE then none
  else some { data := pdbId.head?, residue_ids := residueIds }

/-- The seq_id list built by getLociFromRange and createComponentFromRange:
for (let n = begin; n <= end; n++) seq_id.push(n). -/
def seqIdsFromRange (beginId endId : Int) : List Int :=
  (List.range (endId - beginId + 1).toNat).map (fun (k : Nat) => beginId + (k : Int))

/-- Concrete targets of the first-match scenario of the spec: chain A with
operator 1. -/
def exampleTargets : List Target :=
  [{ struct_oper_id := some "1", label_asym_id := "A" }]

/-- Motif props with the assembly id unset. -/
def exampleProps : MotifProps :=
  { assemblyId := none, targets := exampleTargets }

/-- The two-row metadata table of the spec scenario. -/
def exampleRows : List GenRow :=
  [{ assembly_id := "1", oper_expression := "(1)", asym_id_list := "A,B" },
   { assembly_id := "2", oper_expression := "(1-2)", asym_id_list := "A" }]

/-- Three residues of one entry, across chains A and B. -/
def exampleHistory : List HistEntry :=
  [{ entry := "1ABC", label_asym_id := "A", label_seq_id := 1 },
   { entry := "1ABC", label_asym_id := "A", label_seq_id := 2 },
   { entry := "1ABC", label_asym_id := "B", label_seq_id := 3 }]

/-- Eleven residues of one entry: more than MAX_MOTIF_SIZE. -/
def oversizedHistory : List HistEntry :=
  (List.range 11).map (fun i => { entry := "1ABC", label_asym_id := "A", label_seq_id := (i : Int) })

/-! ## Helper lemmas -/

/-- find? returns the element at the first index satisfying the predicate. -/
theorem find_first_aux {α : Type} (q : α → Bool) :
    ∀ (l : List α) (j : Nat) (hj : j < l.length),
      (∀ k, ∀ hk : k < j, q (l.get ⟨k, Nat.lt_trans hk hj⟩) = false) →
      q (l.get ⟨j, hj⟩) = true →
      l.find? q = some (l.get ⟨j, hj⟩)
  | [], j, hj, _, _ => absurd hj (by simp)
  | a :: t, 0, _, _, hm => List.find?_cons_of_pos t hm
  | a :: t, j + 1, hj, hb, hm => by
    have h0 : q a = false := hb 0 (Nat.succ_pos j)
    have ht : t.find? q = some (t.get ⟨j, Nat.lt_of_succ_lt_succ hj⟩) :=
      find_first_aux q t j (Nat.lt_of_succ_lt_succ hj)
        (fun k hk => hb (k + 1) (Nat.succ_lt_succ hk)) hm
    rw [List.find?_cons_of_neg t (by simp [h0])]
    exact ht

/-- The counting loop of equalsFn reaches the number of components iff there
are at least as many axes as components and every zipped pair is contained. -/
theorem countP_zip_eq_iff (axes : List (List String)) (comps : List String) :
    (((axes.zip comps).countP (fun q => q.1.contains q.2)) == comps.length) = true ↔
      (comps.length ≤ axes.length ∧
        ∀ q ∈ axes.zip comps, q.1.contains q.2 = true) := by
  rw [beq_iff_eq]
  have hle : (axes.zip comps).countP (fun q => q.1.contains q.2) ≤ (axes.zip comps).length :=
    List.countP_le_length _
  have hz : (axes.zip comps).length = axes.length ⊓ comps.length := List.length_zip _ _
  constructor
  · intro h
    have hlen : comps.length ≤ axes.length := by
      rw [hz] at hle
      omega
    have hfull : (axes.zip comps).countP (fun q => q.1.contains q.2) = (axes.zip comps).length := by
      rw [hz]
      omega
    exact ⟨hlen, List.countP_eq_length.mp hfull⟩
  · intro ⟨hlen, hall⟩
    have hfull := List.countP_eq_length.mpr hall
    rw [hfull, hz]
    omega

/-! ## Claims -/

/-- C1: assembly-id disambiguation is first-match-wins — with the assembly id
unset, determineAssemblyId scans the pdbx_struct_assembly_gen rows in table
order and assigns the assembly id of the first row for which every requested
pair matches. -/
theorem determineAssemblyId_first_match (p : MotifProps) (rows : List GenRow) (j : Nat)
    (hunset : assemblyKnown p.assemblyId = false) (hj : j < rows.length)
    (hbefore : ∀ k, ∀ hk : k < j,
      rowMatches (extractIds p.targets) (rows.get ⟨k, Nat.lt_trans hk hj⟩) = false)
    (hmatch : rowMatches (extractIds p.targets) (rows.get ⟨j, hj⟩) = true) :
    determineAssemblyId (TableAccess.ok rows) p =
      { p with assemblyId := some ((rows.get ⟨j, hj⟩).assembly_id) } := by
  have hfind := find_first_aux (rowMatches (extractIds p.targets)) rows j hj hbefore hmatch
  simp [determineAssemblyId, hunset, hfind]

/-- C1 witness: in the two-row spec scenario both rows match the request for
chain A with operator 1, and row 0 with assembly id 1 is selected. -/
theorem determineAssemblyId_first_match_witness :
    rowMatches (extractIds exampleProps.targets) (exampleRows.get ⟨0, by decide⟩) = true ∧
    rowMatches (extractIds exampleProps.targets) (exampleRows.get ⟨1, by decide⟩) = true ∧
    determineAssemblyId (TableAccess.ok exampleRows) exampleProps =
      { exampleProps with assemblyId := some "1" } :=
  ⟨by decide, by decide,
    determineAssemblyId_first_match exampleProps exampleRows 0 (by decide) (by decide)
      (fun k hk => absurd hk (Nat.not_lt_zero k)) (by decide)⟩

/-- C3: assembly-id inference never raises — a throwing metadata accessor is
caught and the assembly id defaults to 1, and the same default is assigned
when no row matches; the embedded function is total, so no exception
escapes. -/
theorem determineAssemblyId_defaults (p : MotifProps) (rows : List GenRow)
    (hunset : assemblyKnown p.assemblyId = false) :
    determineAssemblyId TableAccess.error p = { p with assemblyId := some "1" } ∧
    ((∀ r ∈ rows, rowMatches (extractIds p.targets) r = false) →
      determineAssemblyId (TableAccess.ok rows) p = { p with assemblyId := some "1" }) := by
  constructor
  · simp [determineAssemblyId, hunset]
  · intro hnone
    have hf : rows.find? (rowMatches (extractIds p.targets)) = none :=
      List.find?_eq_none.mpr (fun x hx => by simp [hnone x hx])
    simp [determineAssemblyId, hunset, hf]

/-- C3 witness: the defaults at a throwing accessor and at a table whose only
row does not contain the requested chain. -/
theorem determineAssemblyId_defaults_witness :
    determineAssemblyId TableAccess.error { assemblyId := none, targets := [] } =
      { assemblyId := some "1", targets := [] } ∧
    determineAssemblyId
        (TableAccess.ok [{ assembly_id := "9", oper_expression := "(1)", asym_id_list := "B" }])
        { assemblyId := none, targets := [{ struct_oper_id := none, label_asym_id := "A" }] } =
      { assemblyId := some "1", targets := [{ struct_oper_id := none, label_asym_id := "A" }] } :=
  ⟨(determineAssemblyId_defaults { assemblyId := none, targets := [] } [] (by decide)).1,
   (determineAssemblyId_defaults
      { assemblyId := none, targets := [{ struct_oper_id := none, label_asym_id := "A" }] }
      [{ assembly_id := "9", oper_expression := "(1)", asym_id_list := "B" }]
      (by decide)).2 (by decide)⟩

/-- C9: when the caller already supplied a non-empty assembly id other than 0,
determineAssemblyId returns immediately and the props, in particular the
assemblyId field, are unchanged, whatever the metadata table holds. -/
theorem determineAssemblyId_skips_known (table : TableAccess) (p : MotifProps) (s : String)
    (hs : p.assemblyId = some s) (h1 : s ≠ "") (h2 : s ≠ "0") :
    determineAssemblyId table p = p := by
  have hk : assemblyKnown p.assemblyId = true := by
    simp [assemblyKnown, hs, h1, h2]
  simp [determineAssemblyId, hk]

/-- C9 witness: a supplied id 3 survives even a throwing accessor. -/
theorem determineAssemblyId_skips_known_witness :
    determineAssemblyId TableAccess.error { assemblyId := some "3", targets := [] } =
      { assemblyId := some "3", targets := [] } :=
  determineAssemblyId_skips_known TableAccess.error
    { assemblyId := some "3", targets := [] } "3" rfl (by decide) (by decide)

/-- C10: after every call the assemblyId field is defined — it is the
pre-existing known value, the assembly id of the first matching row, or the
fallback 1. -/
theorem determineAssemblyId_assemblyId_defined (table : TableAccess) (p : MotifProps) :
    ∃ s, (determineAssemblyId table p).assemblyId = some s ∧
      ((assemblyKnown p.assemblyId = true ∧ p.assemblyId = some s) ∨
       (∃ rows r, table = TableAccess.ok rows ∧
          rows.find? (rowMatches (extractIds p.targets)) = some r ∧ s = r.assembly_id) ∨
       s = "1") := by
  by_cases hk : assemblyKnown p.assemblyId = true
  · cases hp : p.assemblyId with
    | none => simp [assemblyKnown, hp] at hk
    | some s =>
      have hk2 : assemblyKnown (some s) = true := hp ▸ hk
      refine ⟨s, ?_, Or.inl ⟨hk2, rfl⟩⟩
      simp [determineAssemblyId, hk2, hp]
  · have hk2 : assemblyKnown p.assemblyId = false := by
      simpa using hk
    cases table with
    | error => exact ⟨"1", by simp [determineAssemblyId, hk2], Or.inr (Or.inr rfl)⟩
    | ok rows =>
      cases hf : rows.find? (rowMatches (extractIds p.targets)) with
      | none => exact ⟨"1", by simp [determineAssemblyId, hk2, hf], Or.inr (Or.inr rfl)⟩
      | some r =>
        exact ⟨r.assembly_id, by simp [determineAssemblyId, hk2, hf],
          Or.inr (Or.inl ⟨rows, r, rfl, hf, rfl⟩)⟩

/-- C2 counterexample: the claim describes pair matching through membership in
the chain-label list and through dot-separated coordinate components, but the
code checks substring containment on the raw chain string and splits the
coordinate at the character x — at these concrete inputs the code matches
while the claimed predicate does not. -/
theorem pairMatches_spec_counterexample :
    (codePairMatches { assembly_id := "1", oper_expression := "(1)(2)", asym_id_list := "AB" }
        ("1x2", "A") = true ∧
      specPairMatches { assembly_id := "1", oper_expression := "(1)(2)", asym_id_list := "AB" }
        ("1x2", "A") = false) ∧
    (codePairMatches { assembly_id := "1", oper_expression := "(1)(2)", asym_id_list := "A" }
        ("1x2", "A") = true ∧
      specPairMatches { assembly_id := "1", oper_expression := "(1)(2)", asym_id_list := "A" }
        ("1x2", "A") = false) := by
  decide

/-- C2 amended: a row pair-matches iff the raw chain-label string contains the
requested chain as a substring and the x-separated components of the requested
coordinate fit positionally into the parsed axes (so there are at least as
many axes as components, each axis containing the corresponding component);
and a row matches the whole request only if every requested pair matches. -/
theorem codePairMatches_iff (r : GenRow) (v : String × String) (ids : List (String × String)) :
    (codePairMatches r v = true ↔
      (strContains r.asym_id_list v.2 = true ∧
        (jsSplit (fun c => c == 'x') v.1).length ≤ (parseOperatorList r.oper_expression).length ∧
        ∀ q ∈ (parseOperatorList r.oper_expression).zip (jsSplit (fun c => c == 'x') v.1),
          q.1.contains q.2 = true)) ∧
    (rowMatches ids r = true → ∀ w ∈ ids, codePairMatches r w = true) := by
  constructor
  · rw [codePairMatches, Bool.and_eq_true, equalsFn]
    rw [countP_zip_eq_iff (parseOperatorList r.oper_expression) (jsSplit (fun c => c == 'x') v.1)]
    tauto
  · intro hall w hw
    exact List.all_eq_true.mp hall w hw

/-- C2 amended witness: the characterization applied at the spec scenario pair. -/
theorem codePairMatches_iff_witness :
    codePairMatches { assembly_id := "1", oper_expression := "(1)", asym_id_list := "A,B" }
      ("1", "A") = true :=
  ((codePairMatches_iff { assembly_id := "1", oper_expression := "(1)", asym_id_list := "A,B" }
      ("1", "A") []).1).mpr (by decide)

/-- C4: for begin less than or equal to end the expanded seq-id list holds
exactly end - begin + 1 integers, is strictly ascending, and holds precisely
the integers of the inclusive range; for begin greater than end it is empty. -/
theorem seqIdsFromRange_spec (b e : Int) :
    (b ≤ e →
      ((seqIdsFromRange b e).length : Int) = e - b + 1 ∧
      List.Pairwise (fun x y => x < y) (seqIdsFromRange b e) ∧
      ∀ x : Int, x ∈ seqIdsFromRange b e ↔ (b ≤ x ∧ x ≤ e)) ∧
    (e < b → seqIdsFromRange b e = []) := by
  constructor
  · intro hbe
    refine ⟨?_, ?_, ?_⟩
    · simp only [seqIdsFromRange, List.length_map, List.length_range]
      omega
    · rw [seqIdsFromRange, List.pairwise_map]
      exact (List.pairwise_lt_range _).imp (fun h => by omega)
    · intro x
      simp only [seqIdsFromRange, List.mem_map, List.mem_range]
      constructor
      · rintro ⟨k, hk, rfl⟩
        omega
      · rintro ⟨h1, h2⟩
        exact ⟨(x - b).toNat, by omega, by omega⟩
  · intro hlt
    have h0 : (e - b + 1).toNat = 0 := Int.toNat_of_nonpos (by omega)
    simp [seqIdsFromRange, h0]

/-- C4 witness: the range 1..3 has length 3 and the inverted pair 5,1 expands
to the empty list. -/
theorem seqIdsFromRange_spec_witness :
    ((seqIdsFromRange 1 3).length : Int) = 3 - 1 + 1 ∧ seqIdsFromRange 5 1 = [] :=
  ⟨((seqIdsFromRange_spec 1 3).1 (by decide)).1, (seqIdsFromRange_spec 5 1).2 (by decide)⟩

/-- C5: parsing is total and tolerant — a range whose bounds are non-numeric
or inverted expands to no tokens instead of failing, and the well-formed
input of the spec parses to the expected axes; the axis of a malformed-only
group stays present but empty. -/
theorem parseOperatorList_malformed_total :
    (∀ pre post : String,
      (parseIntOpt pre = none ∨ parseIntOpt post = none ∨
        (∃ a b : Int, parseIntOpt pre = some a ∧ parseIntOpt post = some b ∧ b < a)) →
      expandRange pre post = []) ∧
    parseOperatorList "(X0)(1-5)" = [["X0"], ["1", "2", "3", "4", "5"]] ∧
    parseOperatorList "(5-1)" = [[]] ∧
    parseOperatorList "(a-b)" = [[]] := by
  refine ⟨?_, by decide, by decide, by decide⟩
  intro pre post h
  cases hpre : parseIntOpt pre with
  | none =>
    cases hpost : parseIntOpt post with
    | none => simp [expandRange, hpre, hpost]
    | some b => simp [expandRange, hpre, hpost]
  | some a =>
    cases hpost : parseIntOpt post with
    | none => simp [expandRange, hpre, hpost]
    | some b =>
      rcases h with h | h | ⟨a2, b2, ha2, hb2, hab⟩
      · rw [hpre] at h
        exact absurd h (by simp)
      · rw [hpost] at h
        exact absurd h (by simp)
      · rw [hpre] at ha2
        rw [hpost] at hb2
        have hba : b < a := by
          have e1 : a = a2 := by injection ha2
          have e2 : b = b2 := by injection hb2
          omega
        have h0 : (b - a + 1).toNat = 0 := Int.toNat_of_nonpos (by omega)
        simp [expandRange, hpre, hpost, h0]

/-- C5 witness: an inverted numeric range expands to nothing. -/
theorem parseOperatorList_malformed_total_witness :
    expandRange "5" "1" = [] :=
  parseOperatorList_malformed_total.1 "5" "1"
    (Or.inr (Or.inr ⟨5, 1, by decide, by decide, by decide⟩))

/-- C6: a three-residue selection whose entries form a single-element set
yields a query with three residue ids, and any selection whose considered
entries span at least two distinct source entries yields no query. -/
theorem submitSearch_entries :
    (∀ hist : List HistEntry, hist.length = 3 →
      (setOfList (hist.map (fun l => l.entry))).length = 1 →
      Option.map (fun q => q.residue_ids.length) (submitSearch hist) = some 3) ∧
    (∀ hist : List HistEntry,
      2 ≤ (setOfList ((hist.take MAX_MOTIF_SIZE).map (fun l => l.entry))).length →
      submitSearch hist = none) := by
  constructor
  · intro hist h3 h1
    have htake : hist.take MAX_MOTIF_SIZE = hist :=
      List.take_of_length_le (by rw [h3]; decide)
    rw [submitSearch, htake, h1]
    have hlen : (hist.map
        (fun l => ({ label_asym_id := l.label_asym_id, struct_oper_id := "1",
                     label_seq_id := l.label_seq_id } : ResidueId))).length = 3 := by
      rw [List.length_map, h3]
    rw [hlen]
    simp
    exact ⟨_, ⟨by decide, rfl⟩, hlen⟩
  · intro hist h2
    rw [submitSearch]
    rw [if_pos (by omega)]

/-- C6 witness: three residues of one entry across chains A and B produce a
query of three residue ids; appending a residue of a second entry aborts. -/
theorem submitSearch_entries_witness :
    Option.map (fun q => q.residue_ids.length) (submitSearch exampleHistory) = some 3 ∧
    submitSearch (exampleHistory ++ [{ entry := "2XYZ", label_asym_id := "A", label_seq_id := 4 }]) =
      none :=
  ⟨submitSearch_entries.1 exampleHistory (by decide) (by decide),
   submitSearch_entries.2
     (exampleHistory ++ [{ entry := "2XYZ", label_asym_id := "A", label_seq_id := 4 }])
     (by decide)⟩

/-- C7 counterexample: an eleven-residue single-entry history exceeds
MAX_MOTIF_SIZE, yet submitSearch produces a query (of ten residue ids)
instead of aborting — the loop caps the residue list at MAX_MOTIF_SIZE, so
the oversized-list guard never fires. -/
theorem submitSearch_oversized_counterexample :
    MAX_MOTIF_SIZE < oversizedHistory.length ∧
    Option.map (fun q => q.residue_ids.length) (submitSearch oversizedHistory) = some 10 := by
  decide

/-- C7 amended: submitSearch aborts only for multiple distinct entries among
the first MAX_MOTIF_SIZE history entries, never for size; an oversized
history is truncated and any produced query holds min(MAX_MOTIF_SIZE, n)
residue ids. -/
theorem submitSearch_truncates (hist : List HistEntry) :
    (submitSearch hist = none ↔
      2 ≤ (setOfList ((hist.take MAX_MOTIF_SIZE).map (fun l => l.entry))).length) ∧
    (∀ q, submitSearch hist = some q →
      q.residue_ids.length = min MAX_MOTIF_SIZE hist.length) := by
  have hsize : ((hist.take MAX_MOTIF_SIZE).map
      (fun l => ({ label_asym_id := l.label_asym_id, struct_oper_id := "1",
                   label_seq_id := l.label_seq_id } : ResidueId))).length =
      min MAX_MOTIF_SIZE hist.length := by
    rw [List.length_map, List.length_take]
  by_cases hgt :
      1 < (setOfList ((hist.take MAX_MOTIF_SIZE).map (fun l => l.entry))).length
  · constructor
    · rw [submitSearch, if_pos hgt]
      exact iff_of_true rfl (by omega)
    · intro q hq
      rw [submitSearch, if_pos hgt] at hq
      exact absurd hq (by simp)
  · have hguard : ¬ ((hist.take MAX_MOTIF_SIZE).map
        (fun l => ({ label_asym_id := l.label_asym_id, struct_oper_id := "1",
                     label_seq_id := l.label_seq_id } : ResidueId))).length > MAX_MOTIF_SIZE := by
      rw [hsize]
      omega
    constructor
    · rw [submitSearch, if_neg hgt, if_neg hguard]
      exact iff_of_false (by simp) (by omega)
    · intro q hq
      rw [submitSearch, if_neg hgt, if_neg hguard] at hq
      have hq2 := Option.some.inj hq
      rw [← hq2]
      exact hsize

/-- C7 amended witness: a two-entry history aborts, via the iff. -/
theorem submitSearch_truncates_witness :
    submitSearch [{ entry := "1ABC", label_asym_id := "A", label_seq_id := 1 },
                  { entry := "2XYZ", label_asym_id := "A", label_seq_id := 2 }] = none :=
  (submitSearch_truncates
    [{ entry := "1ABC", label_asym_id := "A", label_seq_id := 1 },
     { entry := "2XYZ", label_asym_id := "A", label_seq_id := 2 }]).1.mpr (by decide)

/-- C8: the source comment calls the extracted pairs a set, but the filter
(x, i, a) => a.indexOf(x) === i compares freshly allocated pair arrays by
reference, so it keeps every index and duplicates survive: extracting from
two identical targets keeps the pair twice. -/
theorem extractIds_keeps_duplicates :
    extractIds [{ struct_oper_id := some "1", label_asym_id := "A" },
                { struct_oper_id := some "1", label_asym_id := "A" }] =
      [("1", "A"), ("1", "A")] ∧
    (extractIds [{ struct_oper_id := some "1", label_asym_id := "A" },
                 { struct_oper_id := some "1", label_asym_id := "A" }]).count ("1", "A") = 2 := by
  decide
